import Mathlib

/-!
# FlowFit API client — shallow embedding and verification

This file embeds the browser-side API client of the FlowFit repository
(`src/api.js`, canonical variant, and the fixed variant in
`src/unnamed/part_000`) into Lean 4 and proves the frozen claims about it.

Modelling conventions:
* `localStorage` is a three-field record `Store` (keys `accessToken`,
  `refreshToken`, `user`); `getItem` returning `null` is `none`.
* JavaScript truthiness of a stored string: `null` and `""` are falsy.
* The network is an explicit oracle: each `fetch` outcome is passed in as a
  `FetchOutcome` (transport failure, or a status plus an optional parsed
  JSON envelope; `none` body means `response.json()` throws).
* Thrown exceptions are `Except.error`; code that never throws returns
  plain values.
-/

/-- JS truthiness of a `localStorage.getItem` result: `null` (= `none`) and
the empty string are falsy, every other string is truthy. -/
def jsTruthy : Option String → Bool
  | none => false
  | some s => s != ""

/-- JS string coercion of a possibly-null value, as in template literals:
`null` renders as `"null"`. -/
def jsStrOf : Option String → String
  | none => "null"
  | some s => s

/-- JS `a || b` on a possibly-absent string with a string default:
returns `a` when truthy, otherwise `b`. -/
def jsOrStr (a : Option String) (b : String) : String :=
  match a with
  | some s => if s != "" then s else b
  | none => b

-- ============================================================
-- JSON values (for `JSON.parse` / `JSON.stringify` in TokenManager)
-- ============================================================

/-- A JSON value, the result type of `JSON.parse`. -/
inductive Json where
  | null : Json
  | bool (b : Bool) : Json
  | num (n : Int) : Json
  | str (s : String) : Json
  | arr (xs : List Json) : Json
  | obj (fields : List (String × Json)) : Json
deriving Repr

/-- The character `{` (written by code point to keep it out of literals). -/
def lbrace : Char := Char.ofNat 123

/-- The character `}` (written by code point to keep it out of literals). -/
def rbrace : Char := Char.ofNat 125

/-- Drop leading JSON whitespace. -/
def skipWs (cs : List Char) : List Char :=
  cs.dropWhile (fun c => c = ' ' ∨ c = '\t' ∨ c = '\n' ∨ c = '\r')

/-- Parse a maximal run of decimal digits; `none` when the first character
is not a digit. Returns the value and the remaining characters. -/
def parseDigits (cs : List Char) : Option (Nat × List Char) :=
  let ds := cs.takeWhile Char.isDigit
  if ds.isEmpty then none
  else some (ds.foldl (fun acc c => 10 * acc + (c.toNat - 48)) 0, cs.dropWhile Char.isDigit)

/-- Parse the body of a JSON string after the opening quote: characters up
to the closing quote. Escape sequences are outside the modelled subset and
fail the parse. -/
def parseStrBody (fuel : Nat) (cs : List Char) : Option (String × List Char) :=
  match fuel, cs with
  | 0, _ => none
  | _, [] => none
  | fuel + 1, c :: rest =>
    if c = '"' then some ("", rest)
    else if c = '\\' then none
    else match parseStrBody fuel rest with
      | some (s, rem) => some (String.singleton c ++ s, rem)
      | none => none

mutual

/-- Fuel-driven recursive-descent parser for the modelled JSON subset
(null, booleans, integers, strings without escapes, arrays, objects). -/
def parseVal (fuel : Nat) (cs : List Char) : Option (Json × List Char) :=
  match fuel with
  | 0 => none
  | fuel + 1 =>
    match skipWs cs with
    | 'n' :: 'u' :: 'l' :: 'l' :: rest => some (.null, rest)
    | 't' :: 'r' :: 'u' :: 'e' :: rest => some (.bool true, rest)
    | 'f' :: 'a' :: 'l' :: 's' :: 'e' :: rest => some (.bool false, rest)
    | '"' :: rest =>
      match parseStrBody (rest.length + 1) rest with
      | some (s, rem) => some (.str s, rem)
      | none => none
    | '-' :: rest =>
      match parseDigits rest with
      | some (n, rem) => some (.num (-(n : Int)), rem)
      | none => none
    | '[' :: rest =>
      (match skipWs rest with
       | ']' :: rem => some (.arr [], rem)
       | _ =>
         match parseElems fuel rest with
         | some (xs, rem) => some (.arr xs, rem)
         | none => none)
    | c :: rest =>
      if c = lbrace then
        match skipWs rest with
        | d :: rem =>
          if d = rbrace then some (.obj [], rem)
          else
            (match parseFields fuel rest with
             | some (fs, rem2) => some (.obj fs, rem2)
             | none => none)
        | [] => none
      else if c.isDigit then
        match parseDigits (c :: rest) with
        | some (n, rem) => some (.num (n : Int), rem)
        | none => none
      else none
    | [] => none

/-- Parse one or more comma-separated array elements followed by `]`. -/
def parseElems (fuel : Nat) (cs : List Char) : Option (List Json × List Char) :=
  match fuel with
  | 0 => none
  | fuel + 1 =>
    match parseVal fuel cs with
    | some (v, rest) =>
      (match skipWs rest with
       | ',' :: rest2 =>
         (match parseElems fuel rest2 with
          | some (vs, rem) => some (v :: vs, rem)
          | none => none)
       | ']' :: rem => some ([v], rem)
       | _ => none)
    | none => none

/-- Parse one or more comma-separated `"key": value` pairs followed by `}`. -/
def parseFields (fuel : Nat) (cs : List Char) : Option (List (String × Json) × List Char) :=
  match fuel with
  | 0 => none
  | fuel + 1 =>
    match skipWs cs with
    | '"' :: rest =>
      (match parseStrBody (rest.length + 1) rest with
       | some (k, rem) =>
         (match skipWs rem with
          | ':' :: rem2 =>
            (match parseVal fuel rem2 with
             | some (v, rem3) =>
               (match skipWs rem3 with
                | ',' :: rem4 =>
                  (match parseFields fuel rem4 with
                   | some (fs, rem5) => some ((k, v) :: fs, rem5)
                   | none => none)
                | d :: rem4 =>
                  if d = rbrace then some ([(k, v)], rem4) else none
                | [] => none)
             | none => none)
          | _ => none)
       | none => none)
    | _ => none

end

/-- Model of `JSON.parse`: `none` is a thrown `SyntaxError`. The parse must
consume the whole input up to trailing whitespace. -/
def jsonParse (s : String) : Option Json :=
  match parseVal (s.length + 1) s.data with
  | some (v, rest) => if (skipWs rest).isEmpty then some v else none
  | none => none

mutual

/-- Model of `JSON.stringify` on the modelled JSON subset. -/
def jsonStringify : Json → String
  | .null => "null"
  | .bool true => "true"
  | .bool false => "false"
  | .num n => toString n
  | .str s => "\"" ++ s ++ "\""
  | .arr xs => "[" ++ stringifyElems xs ++ "]"
  | .obj fs => String.singleton lbrace ++ stringifyFields fs ++ String.singleton rbrace

/-- Serialize array elements, comma separated. -/
def stringifyElems : List Json → String
  | [] => ""
  | [x] => jsonStringify x
  | x :: xs => jsonStringify x ++ "," ++ stringifyElems xs

/-- Serialize object fields, comma separated. -/
def stringifyFields : List (String × Json) → String
  | [] => ""
  | [(k, v)] => "\"" ++ k ++ "\":" ++ jsonStringify v
  | (k, v) :: fs => "\"" ++ k ++ "\":" ++ jsonStringify v ++ "," ++ stringifyFields fs

end

-- ============================================================
-- Token store (`localStorage` keys accessToken / refreshToken / user)
-- ============================================================

/-- The three origin-scoped `localStorage` keys the client persists.
`none` models an absent key (`getItem` returns `null`). -/
structure Store where
  accessToken : Option String
  refreshToken : Option String
  user : Option String
deriving Repr, DecidableEq

namespace TokenManager

/-- `TokenManager.getAccessToken` (`src/api.js` line 24). -/
def getAccessToken (st : Store) : Option String := st.accessToken

/-- `TokenManager.getRefreshToken` (`src/api.js` line 25). -/
def getRefreshToken (st : Store) : Option String := st.refreshToken

/-- `TokenManager.setTokens` (`src/api.js` lines 27–30): writes both the
access and the refresh token. -/
def setTokens (accessToken refreshToken : String) (st : Store) : Store :=
  { st with accessToken := some accessToken, refreshToken := some refreshToken }

/-- `TokenManager.clearTokens` (`src/api.js` lines 32–36): removes the
access token, the refresh token and the user record. -/
def clearTokens (_st : Store) : Store :=
  { accessToken := none, refreshToken := none, user := none }

/-- `TokenManager.getUser` (`src/api.js` lines 38–41):
`const user = localStorage.getItem('user'); return user ? JSON.parse(user) : null;`.
A falsy stored value (absent key or empty string) yields `null`; otherwise
`JSON.parse` runs and a parse failure is a thrown `SyntaxError`
(`Except.error`). -/
def getUser (st : Store) : Except String (Option Json) :=
  match st.user with
  | none => .ok none
  | some s =>
    if s = "" then .ok none
    else
      match jsonParse s with
      | some v => .ok (some v)
      | none => .error "SyntaxError: Unexpected token in JSON"

/-- `TokenManager.setUser` (`src/api.js` lines 43–45): stores
`JSON.stringify(user)` under the `user` key. -/
def setUser (user : Json) (st : Store) : Store :=
  { st with user := some (jsonStringify user) }

end TokenManager

-- ============================================================
-- HTTP layer: fetch outcomes, response handling
-- ============================================================

/-- The fixed base URL (`API_CONFIG.baseURL`, `src/api.js` line 14). -/
def API_baseURL : String := "https://fit.cctamcc.site/api/v1"

/-- The parsed JSON envelope of an API response
(`{ success, data?, error?, message? }`, spec §6). For the auth endpoints
`data` carries the token pair plus the user record. -/
structure RespBody where
  success : Bool
  dataField : Option (String × String × Json)
  error : Option String
  message : Option String
deriving Repr

/-- Outcome of one `fetch` of an API endpoint: a transport failure
(`fetch` throws), or a response with an HTTP status whose `json()` either
yields an envelope or throws (`none`). -/
inductive FetchOutcome where
  | netError : FetchOutcome
  | resp (status : Nat) (body : Option RespBody) : FetchOutcome
deriving Repr

/-- Outcome of the one `fetch` of the `/auth/refresh` endpoint: transport
failure, a body that is not JSON, or a parsed body with a `success` flag
and an optional `data` object carrying the new `(accessToken, refreshToken)`
pair. -/
inductive RefreshResponse where
  | netError : RefreshResponse
  | badJson : RefreshResponse
  | json (success : Bool) (dataField : Option (String × String)) : RefreshResponse
deriving Repr, DecidableEq

/-- Errors thrown by the request wrapper. -/
inductive ApiError where
  | networkError : ApiError
  | jsonError : ApiError
  | requestError (msg : String) : ApiError
  | sessionExpired : ApiError
deriving Repr

/-- Caller-supplied `options` of `apiRequest`: method, extra headers, body. -/
structure Options where
  method : Option String := none
  headers : List (String × String) := []
  body : Option String := none
deriving Repr

/-- Record of one `fetch` performed by the request wrapper (URL and the
headers it carried). -/
structure FetchLog where
  url : String
  headers : List (String × String)
deriving Repr

/-- Set header `k` to `v`, replacing an existing entry (JS object index
assignment `headers[k] = v`). -/
def hdrSet (hs : List (String × String)) (k v : String) : List (String × String) :=
  if hs.any (fun p => p.1 = k) then
    hs.map (fun p => if p.1 = k then (k, v) else p)
  else hs ++ [(k, v)]

/-- Read header `k`. -/
def hdrGet (hs : List (String × String)) (k : String) : Option String :=
  (hs.find? (fun p => p.1 = k)).map (fun p => p.2)

/-- `handleResponse` (`src/api.js` lines 167–175): parse the body as JSON
(a non-JSON body throws), then throw
`data.error || data.message || 'Request failed'` on a non-ok status,
else return the parsed body. `response.ok` is status 200–299. -/
def handleResponse (status : Nat) (body : Option RespBody) : Except ApiError RespBody :=
  match body with
  | none => .error .jsonError
  | some data =>
    if 200 ≤ status ∧ status ≤ 299 then .ok data
    else .error (.requestError (jsOrStr data.error (jsOrStr data.message "Request failed")))

-- ============================================================
-- Refresh Flow (`refreshAccessToken`, `src/api.js` lines 177–200)
-- ============================================================

/-- Result of the Refresh Flow: the boolean it returns, the store it
leaves behind, how many network calls it made, and the refresh token it
sent in the request body (when a call was made). -/
structure RefreshResult where
  ok : Bool
  store : Store
  calls : Nat
  sent : Option String
deriving Repr, DecidableEq

/-- `refreshAccessToken` (`src/api.js` lines 177–200). Reads the stored
refresh token; a falsy value returns `false` with no network call.
Otherwise it POSTs the token to `/auth/refresh`; if the parsed body has
`data.success && data.data` it writes both new tokens via
`TokenManager.setTokens` and returns `true`; every other outcome
(non-success body, non-JSON body, transport failure) returns `false`.
The whole body is wrapped in `try/catch { return false }`, so the
function never throws — the model's plain return type reflects that. -/
def refreshAccessToken (resp : RefreshResponse) (st : Store) : RefreshResult :=
  match st.refreshToken with
  | none => { ok := false, store := st, calls := 0, sent := none }
  | some rt =>
    if rt = "" then { ok := false, store := st, calls := 0, sent := none }
    else
      match resp with
      | .netError => { ok := false, store := st, calls := 1, sent := some rt }
      | .badJson => { ok := false, store := st, calls := 1, sent := some rt }
      | .json success dataField =>
        match success, dataField with
        | true, some p =>
          { ok := true, store := TokenManager.setTokens p.1 p.2 st, calls := 1, sent := some rt }
        | _, _ => { ok := false, store := st, calls := 1, sent := some rt }

-- ============================================================
-- Request Wrapper (`apiRequest`, `src/api.js` lines 125–165)
-- ============================================================

/-- Result of one `apiRequest` call: the returned value or thrown error,
the store it leaves behind, any `window.location.href` assignment, the
log of the `fetch` calls it made for the original request (one entry per
attempt, retry included), and how many calls the Refresh Flow made. -/
structure ApiResult where
  outcome : Except ApiError RespBody
  store : Store
  redirect : Option String
  requestFetches : List FetchLog
  refreshCalls : Nat
deriving Repr

/-- `apiRequest` (`src/api.js` lines 125–165). Builds the URL from the
fixed base, merges `Content-Type: application/json` with caller headers,
attaches `Authorization: Bearer <token>` when an access token is stored,
and fetches. On a 401 with a token attached it runs the Refresh Flow:
on success it rebuilds the Authorization header from the freshly stored
access token and retries exactly once, returning that response through
`handleResponse`; on failure it clears the token store, redirects to
`login.html` and throws a session-expired error. Any other response goes
straight to `handleResponse`. The network responses are passed in as
oracles: `first` for the original fetch, `refreshResp` for the refresh
endpoint, `retry` for the retried fetch. -/
def apiRequest (endpoint : String) (opts : Options) (st : Store)
    (first : FetchOutcome) (refreshResp : RefreshResponse) (retry : FetchOutcome) :
    ApiResult :=
  let url := API_baseURL ++ endpoint
  let headers0 := ("Content-Type", "application/json") :: opts.headers
  let token := TokenManager.getAccessToken st
  let headers :=
    if jsTruthy token then hdrSet headers0 "Authorization" ("Bearer " ++ jsStrOf token)
    else headers0
  match first with
  | .netError =>
    { outcome := .error .networkError, store := st, redirect := none,
      requestFetches := [{ url := url, headers := headers }], refreshCalls := 0 }
  | .resp status body =>
    if status = 401 ∧ jsTruthy token then
      let rr := refreshAccessToken refreshResp st
      if rr.ok then
        let headers2 :=
          hdrSet headers "Authorization"
            ("Bearer " ++ jsStrOf (TokenManager.getAccessToken rr.store))
        match retry with
        | .netError =>
          { outcome := .error .networkError, store := rr.store, redirect := none,
            requestFetches := [{ url := url, headers := headers },
                               { url := url, headers := headers2 }],
            refreshCalls := rr.calls }
        | .resp status2 body2 =>
          { outcome := handleResponse status2 body2, store := rr.store, redirect := none,
            requestFetches := [{ url := url, headers := headers },
                               { url := url, headers := headers2 }],
            refreshCalls := rr.calls }
      else
        { outcome := .error .sessionExpired, store := TokenManager.clearTokens rr.store,
          redirect := some "login.html",
          requestFetches := [{ url := url, headers := headers }],
          refreshCalls := rr.calls }
    else
      { outcome := handleResponse status body, store := st, redirect := none,
        requestFetches := [{ url := url, headers := headers }], refreshCalls := 0 }

-- ============================================================
-- Auth API store effects (`AuthAPI`, `src/api.js` lines 206–263)
-- ============================================================

/-- Store effect of `AuthAPI.login` (`src/api.js` lines 222–234): run
`apiRequest('/auth/login', …)`; when it returns a body with
`data.success && data.data`, write the token pair with
`TokenManager.setTokens` and the user record with `TokenManager.setUser`.
A thrown error propagates, leaving the store as the wrapper left it. -/
def AuthAPI.loginStore (st : Store) (first : FetchOutcome) (refreshResp : RefreshResponse)
    (retry : FetchOutcome) : Store :=
  let res := apiRequest "/auth/login" {} st first refreshResp retry
  match res.outcome with
  | .ok data =>
    match data.success, data.dataField with
    | true, some d => TokenManager.setUser d.2.2 (TokenManager.setTokens d.1 d.2.1 res.store)
    | _, _ => res.store
  | .error _ => res.store

/-- Store effect of `AuthAPI.register` (`src/api.js` lines 207–220), the
same success handler as login on the `/auth/register` endpoint. -/
def AuthAPI.registerStore (st : Store) (first : FetchOutcome) (refreshResp : RefreshResponse)
    (retry : FetchOutcome) : Store :=
  let res := apiRequest "/auth/register" {} st first refreshResp retry
  match res.outcome with
  | .ok data =>
    match data.success, data.dataField with
    | true, some d => TokenManager.setUser d.2.2 (TokenManager.setTokens d.1 d.2.1 res.store)
    | _, _ => res.store
  | .error _ => res.store

/-- Store effect of `AuthAPI.logout` (`src/api.js` lines 236–251): if a
refresh token is stored, best-effort POST `/auth/logout` through the
wrapper (errors swallowed); the `finally` block always runs
`TokenManager.clearTokens` (followed by a redirect, irrelevant to the
store). -/
def AuthAPI.logoutStore (st : Store) (first : FetchOutcome) (refreshResp : RefreshResponse)
    (retry : FetchOutcome) : Store :=
  let st1 :=
    if jsTruthy (TokenManager.getRefreshToken st) then
      (apiRequest "/auth/logout" {} st first refreshResp retry).store
    else st
  TokenManager.clearTokens st1

/-- Store effect of `checkAuth` (`src/api.js` lines 448–462): when
authenticated, fetch `/auth/me`; on a successful envelope with data,
`TokenManager.setUser`; on a thrown error, `TokenManager.clearTokens`. -/
def checkAuthStore (st : Store) (first : FetchOutcome) (refreshResp : RefreshResponse)
    (retry : FetchOutcome) : Store :=
  if jsTruthy (TokenManager.getAccessToken st) then
    let res := apiRequest "/auth/me" {} st first refreshResp retry
    match res.outcome with
    | .ok data =>
      match data.success, data.dataField with
      | true, some d => TokenManager.setUser d.2.2 res.store
      | _, _ => res.store
    | .error _ => TokenManager.clearTokens res.store
  else st

-- ============================================================
-- Client operations as a transition system (for the C7 invariant)
-- ============================================================

/-- One client operation that touches the token store, with its network
oracle parameters. -/
inductive Op where
  | apiCall (endpoint : String) (opts : Options)
      (first : FetchOutcome) (refreshResp : RefreshResponse) (retry : FetchOutcome) : Op
  | login (first : FetchOutcome) (refreshResp : RefreshResponse) (retry : FetchOutcome) : Op
  | register (first : FetchOutcome) (refreshResp : RefreshResponse) (retry : FetchOutcome) : Op
  | refresh (resp : RefreshResponse) : Op
  | logout (first : FetchOutcome) (refreshResp : RefreshResponse) (retry : FetchOutcome) : Op
  | checkAuth (first : FetchOutcome) (refreshResp : RefreshResponse) (retry : FetchOutcome) : Op

/-- The store transition of one operation, each defined by the embedded
source function. -/
def Op.step (op : Op) (st : Store) : Store :=
  match op with
  | .apiCall e o f rr r => (apiRequest e o st f rr r).store
  | .login f rr r => AuthAPI.loginStore st f rr r
  | .register f rr r => AuthAPI.registerStore st f rr r
  | .refresh resp => (refreshAccessToken resp st).store
  | .logout f rr r => AuthAPI.logoutStore st f rr r
  | .checkAuth f rr r => checkAuthStore st f rr r

/-- Run a sequence of operations from a starting store. -/
def runOps (ops : List Op) (st : Store) : Store :=
  ops.foldl (fun s op => op.step s) st

/-- The pairing invariant of spec §3: the access token and the refresh
token are present or absent together. -/
def tokensTogether (st : Store) : Prop :=
  st.accessToken.isSome = st.refreshToken.isSome

instance (st : Store) : Decidable (tokensTogether st) := by
  unfold tokensTogether; infer_instance

-- ============================================================
-- Workouts API (`WorkoutsAPI.getExercises`, `src/api.js` lines 270–279)
-- ============================================================

/-- A JS value appearing in a filter mapping: a string or a number. -/
inductive JVal where
  | str (s : String) : JVal
  | num (n : Int) : JVal
deriving Repr, DecidableEq

/-- JS truthiness of a filter value: `""` and `0` are falsy. -/
def JVal.truthy : JVal → Bool
  | .str s => s != ""
  | .num n => n != 0

/-- JS `v || d` on filter values. -/
def JVal.orDefault (v d : JVal) : JVal := if v.truthy then v else d

/-- A filter mapping (`filters` object): an association list with the
first binding of a key giving its value, as in a JS object literal. -/
structure Filters where
  entries : List (String × JVal)
deriving Repr, DecidableEq

/-- Property read `filters.k`: `none` models `undefined` (falsy). -/
def Filters.get (f : Filters) (k : String) : Option JVal :=
  (f.entries.find? (fun p => p.1 = k)).map (fun p => p.2)

/-- Truthiness of a property read (`undefined` is falsy). -/
def jvOptTruthy : Option JVal → Bool
  | none => false
  | some v => v.truthy

/-- `WorkoutsAPI.getExercises` (`src/api.js` lines 270–279), the query
parameters it builds: `validFilters` keeps `category`, `limit` (with the
dead `|| 20` default) and `page` (with the dead `|| 1` default), each
guarded by `if (filters.<key>)`; everything else is dropped. The pairs
are what `URLSearchParams` receives, in insertion order. -/
def getExercisesParams (filters : Filters) : List (String × JVal) :=
  let p1 :=
    match filters.get "category" with
    | some v => if v.truthy then [("category", v)] else []
    | none => []
  let p2 :=
    match filters.get "limit" with
    | some v => if v.truthy then [("limit", v.orDefault (.num 20))] else []
    | none => []
  let p3 :=
    match filters.get "page" with
    | some v => if v.truthy then [("page", v.orDefault (.num 1))] else []
    | none => []
  p1 ++ p2 ++ p3

/-- Render a filter value the way `URLSearchParams` stringifies it. -/
def JVal.render : JVal → String
  | .str s => s
  | .num n => toString n

/-- The query string `URLSearchParams(validFilters).toString()` builds
from the parameter pairs (percent-encoding omitted; none of the claims'
inputs need it). -/
def renderQuery (ps : List (String × JVal)) : String :=
  String.intercalate "&" (ps.map (fun p => p.1 ++ "=" ++ p.2.render))

/-- The recognized filter keys of the workouts list call. -/
def recognizedWorkoutKeys : List String := ["category", "limit", "page"]

-- ============================================================
-- Progress API (`ProgressAPI.logWorkout`, `src/api.js` lines 331–356)
-- ============================================================

/-- Model of JS `parseInt` on the decimal subset: skip leading
whitespace, take an optional sign, then the maximal run of digits;
no digits is `NaN` (`none`). -/
def jsParseInt (s : String) : Option Int :=
  let cs := s.data.dropWhile (fun c => c = ' ' ∨ c = '\t' ∨ c = '\n' ∨ c = '\r')
  match cs with
  | '-' :: rest => (parseDigits rest).map (fun p => -(p.1 : Int))
  | '+' :: rest => (parseDigits rest).map (fun p => (p.1 : Int))
  | _ => (parseDigits cs).map (fun p => (p.1 : Int))

/-- Model of JS `parseFloat` on the decimal subset: optional sign,
digits, optional fraction digits; the value is exact (a rational). -/
def jsParseFloat (s : String) : Option ℚ :=
  let cs := s.data.dropWhile (fun c => c = ' ' ∨ c = '\t' ∨ c = '\n' ∨ c = '\r')
  let core : List Char → Option ℚ := fun ds =>
    match parseDigits ds with
    | some (n, rest) =>
      match rest with
      | '.' :: frac =>
        let fds := frac.takeWhile Char.isDigit
        some ((n : ℚ) + (fds.foldl (fun acc c => 10 * acc + (c.toNat - 48)) 0 : ℚ) /
          ((10 : ℚ) ^ fds.length))
      | _ => some (n : ℚ)
    | none => none
  match cs with
  | '-' :: rest => (core rest).map (fun q => -q)
  | '+' :: rest => core rest
  | _ => core cs

/-- The `workoutData` argument of `logWorkout`: form-sourced string
fields; the optional ones may be `undefined`. -/
structure WorkoutInput where
  exerciseId : String
  duration : String
  sets : Option String := none
  reps : Option String := none
  caloriesBurned : Option String := none
  heartRate : Option String := none
  difficulty : Option String := none
  notes : Option String := none
deriving Repr

/-- The JSON body `logWorkout` transmits: numeric fields after coercion
(`none` models `undefined`, or `NaN` from an unparsable string). -/
structure WorkoutBody where
  exerciseId : String
  duration : Option Int
  sets : Option Int
  reps : Option Int
  caloriesBurned : Option ℚ
  heartRate : Option Int
  difficulty : Option String
  notes : Option String
deriving Repr

/-- JS `x ? f x : undefined` for an optional string field (`undefined`
and `""` are falsy). -/
def coerceOpt {α : Type} (f : String → Option α) : Option String → Option α
  | none => none
  | some s => if s = "" then none else f s

/-- `ProgressAPI.logWorkout` (`src/api.js` lines 331–356), the body it
builds: `duration: parseInt(duration)` with no unit rescaling,
`sets`/`reps`/`heartRate` via guarded `parseInt`, `caloriesBurned` via
guarded `parseFloat`, `difficulty` and `notes` passed through. -/
def logWorkoutBody (w : WorkoutInput) : WorkoutBody :=
  { exerciseId := w.exerciseId
    duration := jsParseInt w.duration
    sets := coerceOpt jsParseInt w.sets
    reps := coerceOpt jsParseInt w.reps
    caloriesBurned := coerceOpt jsParseFloat w.caloriesBurned
    heartRate := coerceOpt jsParseInt w.heartRate
    difficulty := w.difficulty
    notes := w.notes }

-- ============================================================
-- Duration formatting
-- ============================================================

/-- `formatDuration` of the fixed variant (`src/unnamed/part_000` lines
308–315), the canonical minutes-based contract of spec §4.5:
`if (!minutes || minutes <= 0) return '0m'`, then hours `⌊minutes/60⌋`
and remainder `minutes % 60` rendered as `"Xh Ym"`, `"Xh"` or `"Ym"`. -/
def formatDuration (minutes : Int) : String :=
  if minutes ≤ 0 then "0m"
  else
    let h := minutes / 60
    let m := minutes % 60
    if h > 0 ∧ m > 0 then toString h ++ "h " ++ toString m ++ "m"
    else if h > 0 then toString h ++ "h"
    else toString m ++ "m"

/-- `formatDuration` of the older variant (`src/api.js` lines 500–512),
which interprets its argument as seconds: hours `⌊s/3600⌋`, minutes
`⌊(s % 3600)/60⌋`, seconds `s % 60`, rendered as `"Xh Ym"`, `"Ym Zs"`
or `"Zs"`. -/
def formatDurationSeconds (seconds : Int) : String :=
  let hours := seconds / 3600
  let minutes := (seconds % 3600) / 60
  let secs := seconds % 60
  if hours > 0 then toString hours ++ "h " ++ toString minutes ++ "m"
  else if minutes > 0 then toString minutes ++ "m " ++ toString secs ++ "s"
  else toString secs ++ "s"

-- ============================================================
-- Helper lemmas and concrete fixtures
-- ============================================================

/-- An empty store: no tokens, no user. -/
def stNoTokens : Store := { accessToken := none, refreshToken := none, user := none }

/-- A store holding a matched token pair. -/
def stWithTokens : Store := { accessToken := some "A0", refreshToken := some "R0", user := none }

lemma hdrGet_hdrSet (hs : List (String × String)) (k v : String) :
    hdrGet (hdrSet hs k v) k = some v := by
  unfold hdrGet hdrSet
  by_cases h : hs.any (fun p => p.1 = k)
  · rw [if_pos h]
    induction hs with
    | nil => simp at h
    | cons p tl ih =>
      by_cases hp : p.1 = k
      · simp [List.find?, hp]
      · simp only [List.any_cons, hp] at h
        simp only [List.map_cons, if_neg hp, List.find?]
        rw [show (decide (p.1 = k)) = false from by simp [hp]]
        exact ih (by simpa using h)
  · rw [if_neg h]
    induction hs with
    | nil => simp [List.find?]
    | cons p tl ih =>
      simp only [List.any_cons, Bool.or_eq_true, decide_eq_true_eq] at h
      push_neg at h
      obtain ⟨hp, htl⟩ := h
      simp only [List.cons_append, List.find?]
      rw [show (decide (p.1 = k)) = false from by simp [hp]]
      exact ih (by simpa using htl)

-- ============================================================
-- C4 — duration formatting (minutes-based, canonical variant)
-- ============================================================

/-- **C4.** For every minute value `m > 0`, `formatDuration m` is
`"{h}h {r}m"` when `h = ⌊m/60⌋ > 0` and `r = m % 60 > 0`, `"{h}h"` when
`r = 0`, and `"{r}m"` when `h = 0`; for `m = 0` and every negative `m`
it is `"0m"`. -/
theorem formatDuration_C4 (m : Int) :
    (m ≤ 0 → formatDuration m = "0m") ∧
    (0 < m →
      (0 < m / 60 → 0 < m % 60 →
        formatDuration m = toString (m / 60) ++ "h " ++ toString (m % 60) ++ "m") ∧
      (m % 60 = 0 → formatDuration m = toString (m / 60) ++ "h") ∧
      (m / 60 = 0 → formatDuration m = toString (m % 60) ++ "m")) := by
  unfold formatDuration
  constructor
  · intro h
    rw [if_pos h]
  · intro hm
    rw [if_neg (by omega)]
    refine ⟨?_, ?_, ?_⟩
    · intro h1 h2
      rw [if_pos ⟨h1, h2⟩]
    · intro hr
      rw [if_neg (by simp [hr]), if_pos (by omega)]
    · intro hh
      rw [if_neg (by simp [hh]), if_neg (by simp [hh])]

/-- Witness for C4 at concrete inputs. -/
theorem formatDuration_C4_witness :
    formatDuration 125 = "2h 5m" ∧ formatDuration 120 = "2h" ∧
    formatDuration 45 = "45m" ∧ formatDuration 0 = "0m" ∧
    formatDuration (-7) = "0m" := by
  refine ⟨?_, ?_, ?_, ?_, ?_⟩
  · rw [((formatDuration_C4 125).2 (by norm_num)).1 (by decide) (by decide)]; rfl
  · rw [((formatDuration_C4 120).2 (by norm_num)).2.1 (by decide)]; rfl
  · rw [((formatDuration_C4 45).2 (by norm_num)).2.2 (by decide)]; rfl
  · exact (formatDuration_C4 0).1 (by norm_num)
  · exact (formatDuration_C4 (-7)).1 (by norm_num)

-- ============================================================
-- C8 — set then clear leaves every read absent
-- ============================================================

/-- **C8.** For every token pair and prior store state,
`setTokens a r` followed by `clearTokens` leaves the access-token read,
the refresh-token read and the user read all absent. -/
theorem setThenClear_C8 (a r : String) (st : Store) :
    TokenManager.getAccessToken (TokenManager.clearTokens (TokenManager.setTokens a r st)) = none ∧
    TokenManager.getRefreshToken (TokenManager.clearTokens (TokenManager.setTokens a r st)) = none ∧
    TokenManager.getUser (TokenManager.clearTokens (TokenManager.setTokens a r st)) = .ok none :=
  ⟨rfl, rfl, rfl⟩

-- ============================================================
-- C6 — logWorkout numeric coercion, minute units
-- ============================================================

/-- **C6.** `logWorkout` coerces the numeric fields to numeric values
(`parseInt`/`parseFloat`, guarded by truthiness for the optional ones),
and the transmitted duration is the integer parse of the input with no
unit rescaling: duration `"45"` is transmitted as `45`, never `2700`. -/
theorem logWorkout_C6 (w : WorkoutInput) :
    (logWorkoutBody w).duration = jsParseInt w.duration ∧
    (logWorkoutBody w).sets = coerceOpt jsParseInt w.sets ∧
    (logWorkoutBody w).reps = coerceOpt jsParseInt w.reps ∧
    (logWorkoutBody w).caloriesBurned = coerceOpt jsParseFloat w.caloriesBurned ∧
    (logWorkoutBody w).heartRate = coerceOpt jsParseInt w.heartRate ∧
    (logWorkoutBody { w with duration := "45" }).duration = some 45 ∧
    (logWorkoutBody { w with duration := "45" }).duration ≠ some 2700 := by
  refine ⟨rfl, rfl, rfl, rfl, rfl, ?_, ?_⟩
  · rfl
  · rw [show (logWorkoutBody { w with duration := "45" }).duration = some 45 from rfl]
    decide

-- ============================================================
-- C9 — getUser on absent / well-formed / malformed stored strings
-- ============================================================

/-- A store whose `user` key holds a string that is not valid JSON. -/
def stBadUser : Store := { accessToken := none, refreshToken := none, user := some "oops" }

/-- **C9 counterexample.** The claim says `getUser` returns a "no user"
value without throwing when the stored string is malformed JSON; on the
store holding `"oops"` the source's unguarded `JSON.parse` throws
instead (modelled as `Except.error`). -/
theorem getUser_C9_counterexample :
    TokenManager.getUser stBadUser = .error "SyntaxError: Unexpected token in JSON" := by
  rfl

/-- **C9 (amended).** `getUser` returns the deserialized value when the
stored string parses, returns "no user" when the key is absent or holds
the empty string, and on a malformed stored string it throws a parse
error rather than returning "no user". -/
theorem getUser_C9_amended (st : Store) (s : String) (v : Json) :
    (st.user = none → TokenManager.getUser st = .ok none) ∧
    (st.user = some "" → TokenManager.getUser st = .ok none) ∧
    (st.user = some s → jsonParse s = some v → TokenManager.getUser st = .ok (some v)) ∧
    (st.user = some s → s ≠ "" → jsonParse s = none →
      TokenManager.getUser st = .error "SyntaxError: Unexpected token in JSON") := by
  refine ⟨?_, ?_, ?_, ?_⟩
  · intro h; simp [TokenManager.getUser, h]
  · intro h; simp [TokenManager.getUser, h]
  · intro h hp
    by_cases hs : s = ""
    · subst hs; exact absurd hp (by rw [show jsonParse "" = none from rfl]; simp)
    · simp [TokenManager.getUser, h, hs, hp]
  · intro h hs hp
    simp [TokenManager.getUser, h, hs, hp]

/-- Witness for C9's amended theorem at concrete stores. -/
theorem getUser_C9_amended_witness :
    TokenManager.getUser stNoTokens = .ok none ∧
    TokenManager.getUser { stNoTokens with user := some "null" } = .ok (some .null) ∧
    TokenManager.getUser stBadUser = .error "SyntaxError: Unexpected token in JSON" := by
  refine ⟨?_, ?_, ?_⟩
  · exact (getUser_C9_amended stNoTokens "" .null).1 rfl
  · exact (getUser_C9_amended { stNoTokens with user := some "null" } "null" .null).2.2.1 rfl rfl
  · exact (getUser_C9_amended stBadUser "oops" .null).2.2.2 rfl (by decide) rfl

-- ============================================================
-- C3 — the Refresh Flow as a boolean oracle
-- ============================================================

/-- **C3.** `refreshAccessToken` never throws (its model returns plain
values) and: with no stored refresh token it returns `false` with no
network call and no writes; whenever it returns `false` the store is
untouched (no partial writes); it returns `true` exactly when a truthy
refresh token was stored and the response body signals success and
carries credentials, and then it has written both new tokens. -/
theorem refreshAccessToken_C3 (resp : RefreshResponse) (st : Store) :
    (jsTruthy st.refreshToken = false →
      refreshAccessToken resp st = { ok := false, store := st, calls := 0, sent := none }) ∧
    ((refreshAccessToken resp st).ok = false → (refreshAccessToken resp st).store = st) ∧
    ((refreshAccessToken resp st).ok = true ↔
      jsTruthy st.refreshToken = true ∧ ∃ a r, resp = .json true (some (a, r))) ∧
    ((refreshAccessToken resp st).ok = true →
      ∃ a r, resp = .json true (some (a, r)) ∧
        (refreshAccessToken resp st).store = TokenManager.setTokens a r st) := by
  cases hrt : st.refreshToken with
  | none =>
    simp [refreshAccessToken, hrt, jsTruthy]
  | some rt =>
    by_cases hr : rt = ""
    · subst hr
      simp [refreshAccessToken, hrt, jsTruthy]
    · cases resp with
      | netError => simp [refreshAccessToken, hrt, hr, jsTruthy]
      | badJson => simp [refreshAccessToken, hrt, hr, jsTruthy]
      | json success dataField =>
        cases success with
        | false => simp [refreshAccessToken, hrt, hr, jsTruthy]
        | true =>
          cases dataField with
          | none => simp [refreshAccessToken, hrt, hr, jsTruthy]
          | some p =>
            simp [refreshAccessToken, hrt, hr, jsTruthy]
            exact ⟨⟨p.1, p.2, rfl⟩, p.1, p.2, rfl, rfl⟩

/-- Witness for C3: the no-token case makes no call, a failure response
leaves the store untouched, and a success response writes both tokens. -/
theorem refreshAccessToken_C3_witness :
    refreshAccessToken .netError stNoTokens
      = { ok := false, store := stNoTokens, calls := 0, sent := none } ∧
    (refreshAccessToken .badJson stWithTokens).store = stWithTokens ∧
    (refreshAccessToken (.json true (some ("A1", "R1"))) stWithTokens).ok = true := by
  refine ⟨?_, ?_, ?_⟩
  · exact (refreshAccessToken_C3 .netError stNoTokens).1 (by decide)
  · exact (refreshAccessToken_C3 .badJson stWithTokens).2.1 (by decide)
  · exact (refreshAccessToken_C3 (.json true (some ("A1", "R1"))) stWithTokens).2.2.1.mpr
      ⟨by decide, "A1", "R1", rfl⟩

-- ============================================================
-- C1 — successful refresh: retry exactly once with the new token
-- ============================================================

/-- **C1.** With stored tokens `(A, R)` attached to a request that gets a
401, and a Refresh Flow response yielding `(A', R')`: the wrapper fetches
the original URL exactly twice (original call and one retry), the first
carrying `Authorization: Bearer A` and the retry `Bearer A'`, and the
store afterwards returns `A'` and `R'`. -/
theorem apiRequest_C1 (endpoint : String) (opts : Options) (st : Store)
    (A R A2 R2 : String) (body : Option RespBody) (retry : FetchOutcome)
    (hA : st.accessToken = some A) (hAne : A ≠ "")
    (hR : st.refreshToken = some R) (hRne : R ≠ "") :
    (apiRequest endpoint opts st (.resp 401 body) (.json true (some (A2, R2))) retry).requestFetches.map
        (fun l => hdrGet l.headers "Authorization")
      = [some ("Bearer " ++ A), some ("Bearer " ++ A2)] ∧
    TokenManager.getAccessToken
        (apiRequest endpoint opts st (.resp 401 body) (.json true (some (A2, R2))) retry).store
      = some A2 ∧
    TokenManager.getRefreshToken
        (apiRequest endpoint opts st (.resp 401 body) (.json true (some (A2, R2))) retry).store
      = some R2 := by
  have hrefresh :
      refreshAccessToken (.json true (some (A2, R2))) st
        = { ok := true, store := TokenManager.setTokens A2 R2 st, calls := 1, sent := some R } := by
    simp [refreshAccessToken, hR, hRne]
  cases retry <;>
    simp [apiRequest, TokenManager.getAccessToken, TokenManager.getRefreshToken,
      TokenManager.setTokens, hA, hAne, jsTruthy, jsStrOf, hrefresh, hdrGet_hdrSet]

/-- Witness for C1 at a concrete store and concrete new tokens. -/
theorem apiRequest_C1_witness :
    (apiRequest "/w" {} stWithTokens (.resp 401 none) (.json true (some ("A1", "R1")))
        (.resp 200 none)).requestFetches.map (fun l => hdrGet l.headers "Authorization")
      = [some "Bearer A0", some "Bearer A1"] ∧
    TokenManager.getAccessToken
        (apiRequest "/w" {} stWithTokens (.resp 401 none) (.json true (some ("A1", "R1")))
          (.resp 200 none)).store
      = some "A1" ∧
    TokenManager.getRefreshToken
        (apiRequest "/w" {} stWithTokens (.resp 401 none) (.json true (some ("A1", "R1")))
          (.resp 200 none)).store
      = some "R1" := by
  have h := apiRequest_C1 "/w" {} stWithTokens "A0" "R0" "A1" "R1" none (.resp 200 none)
    rfl (by decide) rfl (by decide)
  exact h

-- ============================================================
-- C2 — failed refresh: clear, redirect, session-expired, no retry
-- ============================================================

/-- **C2.** With an access token attached to a request that gets a 401,
if the Refresh Flow fails the wrapper clears the token store (all three
reads become absent), redirects to `login.html`, throws the
session-expired error, and performs no retry of the original request
(exactly the one original fetch). -/
theorem apiRequest_C2 (endpoint : String) (opts : Options) (st : Store) (A : String)
    (body : Option RespBody) (refreshResp : RefreshResponse) (retry : FetchOutcome)
    (hA : st.accessToken = some A) (hAne : A ≠ "")
    (hfail : (refreshAccessToken refreshResp st).ok = false) :
    (apiRequest endpoint opts st (.resp 401 body) refreshResp retry).outcome
      = .error .sessionExpired ∧
    (apiRequest endpoint opts st (.resp 401 body) refreshResp retry).store
      = { accessToken := none, refreshToken := none, user := none } ∧
    (apiRequest endpoint opts st (.resp 401 body) refreshResp retry).redirect
      = some "login.html" ∧
    (apiRequest endpoint opts st (.resp 401 body) refreshResp retry).requestFetches.length = 1 := by
  simp [apiRequest, TokenManager.clearTokens, TokenManager.getAccessToken, hA, hAne,
    jsTruthy, hfail]

/-- Witness for C2: concrete store, 401, refresh endpoint answers with a
non-success body. -/
theorem apiRequest_C2_witness :
    (apiRequest "/w" {} stWithTokens (.resp 401 none) (.json false none)
        (.resp 200 none)).outcome = .error .sessionExpired ∧
    (apiRequest "/w" {} stWithTokens (.resp 401 none) (.json false none)
        (.resp 200 none)).store
      = { accessToken := none, refreshToken := none, user := none } ∧
    (apiRequest "/w" {} stWithTokens (.resp 401 none) (.json false none)
        (.resp 200 none)).redirect = some "login.html" ∧
    (apiRequest "/w" {} stWithTokens (.resp 401 none) (.json false none)
        (.resp 200 none)).requestFetches.length = 1 :=
  apiRequest_C2 "/w" {} stWithTokens "A0" none (.json false none) (.resp 200 none)
    rfl (by decide) (by decide)

-- ============================================================
-- C5 / C10 — workouts filter allow-listing
-- ============================================================

lemma JVal.orDefault_of_truthy (v d : JVal) (h : v.truthy = true) : v.orDefault d = v := by
  simp [JVal.orDefault, h]

lemma guard_orDefault (o : Option JVal) (key : String) (d : JVal) :
    (match o with
     | some v => if v.truthy then [(key, v.orDefault d)] else []
     | none => ([] : List (String × JVal))) =
    (match o with
     | some v => if v.truthy then [(key, v)] else []
     | none => ([] : List (String × JVal))) := by
  cases o with
  | none => rfl
  | some v =>
    by_cases hv : v.truthy = true
    · simp [hv, JVal.orDefault_of_truthy]
    · simp [Bool.not_eq_true] at hv
      simp [hv]

lemma mem_guard (o : Option JVal) (key k : String) (w : JVal) :
    ((k, w) ∈ (match o with
               | some v => if v.truthy then [(key, v)] else []
               | none => ([] : List (String × JVal)))) ↔
      (k = key ∧ o = some w ∧ w.truthy = true) := by
  cases o with
  | none => simp
  | some v =>
    by_cases hv : v.truthy = true
    · simp only [hv, if_true, List.mem_singleton, Prod.mk.injEq, Option.some.injEq]
      constructor
      · rintro ⟨rfl, rfl⟩; exact ⟨rfl, rfl, hv⟩
      · rintro ⟨rfl, rfl, _⟩; exact ⟨rfl, rfl⟩
    · simp only [Bool.not_eq_true] at hv
      simp only [hv, Bool.false_eq_true, if_false, List.not_mem_nil, false_iff, not_and,
        Option.some.injEq]
      rintro _ rfl h; simp [h] at hv

/-- Membership characterization of the query parameters `getExercises`
builds: a pair is forwarded exactly when its key is one of the three
recognized keys and the filter mapping holds a truthy value for it. -/
lemma mem_getExercisesParams (filters : Filters) (k : String) (w : JVal) :
    (k, w) ∈ getExercisesParams filters ↔
      ((k = "category" ∧ filters.get "category" = some w ∧ w.truthy = true) ∨
       (k = "limit" ∧ filters.get "limit" = some w ∧ w.truthy = true) ∨
       (k = "page" ∧ filters.get "page" = some w ∧ w.truthy = true)) := by
  unfold getExercisesParams
  rw [guard_orDefault (filters.get "limit") "limit" (.num 20),
      guard_orDefault (filters.get "page") "page" (.num 1)]
  simp only [List.mem_append]
  rw [mem_guard, mem_guard, mem_guard]
  exact or_assoc

/-- A filter mapping holding the recognized key `limit` with the falsy
value `0`. -/
def cexFilters : Filters := { entries := [("limit", JVal.num 0)] }

/-- **C5 counterexample.** The claim says every recognized key present in
the mapping appears in the query string with its value; with
`limit = 0` the key is present, yet the wrapper builds an empty
parameter list (and hence an empty query string), so the pair does not
appear. -/
theorem getExercises_C5_counterexample :
    cexFilters.get "limit" = some (JVal.num 0) ∧
    ("limit", JVal.num 0) ∉ getExercisesParams cexFilters ∧
    getExercisesParams cexFilters = [] ∧
    renderQuery (getExercisesParams cexFilters) = "" := by
  refine ⟨by decide, by decide, by decide, ?_⟩
  rw [show getExercisesParams cexFilters = [] from by decide]
  rfl

/-- **C5 (amended).** In `getExercises`, an unrecognized key never appears
among the forwarded query parameters, and a recognized key (`category`,
`limit`, `page`) present in the mapping appears with its given value
exactly when that value is truthy (falsy values are dropped, see C10). -/
theorem getExercises_C5_amended (filters : Filters) (k : String) :
    (k ∉ recognizedWorkoutKeys → ∀ w, (k, w) ∉ getExercisesParams filters) ∧
    (k ∈ recognizedWorkoutKeys → ∀ v, filters.get k = some v → v.truthy = true →
      (k, v) ∈ getExercisesParams filters) := by
  constructor
  · intro hk w hw
    rw [mem_getExercisesParams] at hw
    rcases hw with ⟨rfl, _, _⟩ | ⟨rfl, _, _⟩ | ⟨rfl, _, _⟩ <;>
      exact hk (by simp [recognizedWorkoutKeys])
  · intro hk v hget hv
    rw [mem_getExercisesParams]
    have hk3 : k = "category" ∨ k = "limit" ∨ k = "page" := by
      simpa [recognizedWorkoutKeys] using hk
    rcases hk3 with rfl | rfl | rfl
    · exact Or.inl ⟨rfl, hget, hv⟩
    · exact Or.inr (Or.inl ⟨rfl, hget, hv⟩)
    · exact Or.inr (Or.inr ⟨rfl, hget, hv⟩)

/-- Witness for C5's amended theorem: an unrecognized key is dropped, a
truthy recognized key is forwarded. -/
theorem getExercises_C5_amended_witness :
    ("muscle", JVal.str "arms") ∉
      getExercisesParams { entries := [("category", JVal.str "strength"), ("muscle", JVal.str "arms")] } ∧
    ("category", JVal.str "strength") ∈
      getExercisesParams { entries := [("category", JVal.str "strength"), ("muscle", JVal.str "arms")] } := by
  constructor
  · exact (getExercises_C5_amended
      { entries := [("category", JVal.str "strength"), ("muscle", JVal.str "arms")] } "muscle").1
      (by decide) (JVal.str "arms")
  · exact (getExercises_C5_amended
      { entries := [("category", JVal.str "strength"), ("muscle", JVal.str "arms")] } "category").2
      (by decide) (JVal.str "strength") (by decide) (by decide)

lemma get_filterOut (l : List (String × JVal)) (k k2 : String) :
    Filters.get { entries := l.filter (fun p => p.1 != k) } k2 =
      (if k2 = k then none else Filters.get { entries := l } k2) := by
  induction l with
  | nil => by_cases h : k2 = k <;> simp [Filters.get, h]
  | cons p tl ih =>
    by_cases h1 : p.1 = k
    · rw [show (p :: tl).filter (fun q => q.1 != k) = tl.filter (fun q => q.1 != k) from by
        rw [List.filter_cons, if_neg (by simp [h1])]]
      rw [ih]
      by_cases h2 : k2 = k
      · simp [h2]
      · simp only [if_neg h2]
        have hne : ¬ p.1 = k2 := fun hc => h2 (hc.symm.trans h1)
        simp [Filters.get, List.find?, hne]
    · rw [show (p :: tl).filter (fun q => q.1 != k) = p :: tl.filter (fun q => q.1 != k) from by
        rw [List.filter_cons, if_pos (by simp [h1])]]
      by_cases h2 : p.1 = k2
      · have hne : ¬ k2 = k := fun hc => h1 (h2.trans hc)
        simp [Filters.get, List.find?, h2, hne]
      · simp only [Filters.get, List.find?] at ih ⊢
        rw [show (decide (p.1 = k2)) = false from by simp [h2]]
        simpa using ih

/-- **C10.** In the allow-listed `getExercises`, a recognized key whose
value is falsy (`0`, `""`) is omitted from the query parameters exactly
as if the key were absent from the mapping, and a key contributes a
parameter only when its value is truthy. -/
theorem getExercises_C10 (filters : Filters) (k : String) (v : JVal)
    (hk : k ∈ recognizedWorkoutKeys) (hget : filters.get k = some v)
    (hv : v.truthy = false) :
    getExercisesParams { entries := filters.entries.filter (fun p => p.1 != k) } =
      getExercisesParams filters ∧
    (∀ w, (k, w) ∉ getExercisesParams filters) := by
  have hk3 : k = "category" ∨ k = "limit" ∨ k = "page" := by
    simpa [recognizedWorkoutKeys] using hk
  constructor
  · rcases hk3 with rfl | rfl | rfl
    · unfold getExercisesParams
      rw [get_filterOut filters.entries "category" "category",
          get_filterOut filters.entries "category" "limit",
          get_filterOut filters.entries "category" "page",
          if_pos rfl,
          if_neg (show ¬ ("limit" = "category") from by decide),
          if_neg (show ¬ ("page" = "category") from by decide)]
      simp [hget, hv]
    · unfold getExercisesParams
      rw [get_filterOut filters.entries "limit" "category",
          get_filterOut filters.entries "limit" "limit",
          get_filterOut filters.entries "limit" "page",
          if_neg (show ¬ ("category" = "limit") from by decide),
          if_pos rfl,
          if_neg (show ¬ ("page" = "limit") from by decide)]
      simp [hget, hv]
    · unfold getExercisesParams
      rw [get_filterOut filters.entries "page" "category",
          get_filterOut filters.entries "page" "limit",
          get_filterOut filters.entries "page" "page",
          if_neg (show ¬ ("category" = "page") from by decide),
          if_neg (show ¬ ("limit" = "page") from by decide),
          if_pos rfl]
      simp [hget, hv]
  · intro w hw
    rw [mem_getExercisesParams] at hw
    rcases hk3 with rfl | rfl | rfl <;>
      rcases hw with ⟨hkk, hg, ht⟩ | ⟨hkk, hg, ht⟩ | ⟨hkk, hg, ht⟩ <;>
      first
      | (exact absurd hkk (by decide))
      | (rw [hget] at hg; cases hg; rw [hv] at ht; cases ht)

-- ============================================================
-- C7 — access and refresh tokens set and cleared together
-- ============================================================

lemma tokensTogether_setTokens (a r : String) (st : Store) :
    tokensTogether (TokenManager.setTokens a r st) := by
  simp [tokensTogether, TokenManager.setTokens]

lemma tokensTogether_clearTokens (st : Store) :
    tokensTogether (TokenManager.clearTokens st) := by
  simp [tokensTogether, TokenManager.clearTokens]

lemma tokensTogether_setUser (u : Json) (st : Store) (h : tokensTogether st) :
    tokensTogether (TokenManager.setUser u st) := by
  simpa [tokensTogether, TokenManager.setUser] using h

lemma refreshAccessToken_store_cases (resp : RefreshResponse) (st : Store) :
    (refreshAccessToken resp st).store = st ∨
    ∃ a r, (refreshAccessToken resp st).store = TokenManager.setTokens a r st := by
  cases hrt : st.refreshToken with
  | none => left; simp [refreshAccessToken, hrt]
  | some rt =>
    by_cases hr : rt = ""
    · left; simp [refreshAccessToken, hrt, hr]
    · cases resp with
      | netError => left; simp [refreshAccessToken, hrt, hr]
      | badJson => left; simp [refreshAccessToken, hrt, hr]
      | json success dataField =>
        cases success with
        | false => left; simp [refreshAccessToken, hrt, hr]
        | true =>
          cases dataField with
          | none => left; simp [refreshAccessToken, hrt, hr]
          | some p => right; exact ⟨p.1, p.2, by simp [refreshAccessToken, hrt, hr]⟩

lemma tokensTogether_refresh (resp : RefreshResponse) (st : Store) (h : tokensTogether st) :
    tokensTogether (refreshAccessToken resp st).store := by
  rcases refreshAccessToken_store_cases resp st with heq | ⟨a, r, heq⟩
  · rw [heq]; exact h
  · rw [heq]; exact tokensTogether_setTokens a r st

lemma tokensTogether_apiRequest (e : String) (o : Options) (st : Store)
    (f : FetchOutcome) (rr : RefreshResponse) (r : FetchOutcome) (h : tokensTogether st) :
    tokensTogether (apiRequest e o st f rr r).store := by
  unfold apiRequest
  cases f with
  | netError => exact h
  | resp status body =>
    dsimp only
    split
    · split
      · cases r with
        | netError => exact tokensTogether_refresh rr st h
        | resp s2 b2 => exact tokensTogether_refresh rr st h
      · simp [tokensTogether, TokenManager.clearTokens]
    · exact h

lemma tokensTogether_loginStore (st : Store) (f : FetchOutcome) (rr : RefreshResponse)
    (r : FetchOutcome) (h : tokensTogether st) :
    tokensTogether (AuthAPI.loginStore st f rr r) := by
  unfold AuthAPI.loginStore
  have hres := tokensTogether_apiRequest "/auth/login" {} st f rr r h
  cases houtcome : (apiRequest "/auth/login" {} st f rr r).outcome with
  | ok data =>
    cases hs : data.success with
    | false => simpa [houtcome, hs] using hres
    | true =>
      cases hd : data.dataField with
      | none => simpa [houtcome, hs, hd] using hres
      | some d =>
        simp only [houtcome, hs, hd]
        exact tokensTogether_setUser _ _ (tokensTogether_setTokens _ _ _)
  | error e => simpa [houtcome] using hres

lemma tokensTogether_registerStore (st : Store) (f : FetchOutcome) (rr : RefreshResponse)
    (r : FetchOutcome) (h : tokensTogether st) :
    tokensTogether (AuthAPI.registerStore st f rr r) := by
  unfold AuthAPI.registerStore
  have hres := tokensTogether_apiRequest "/auth/register" {} st f rr r h
  cases houtcome : (apiRequest "/auth/register" {} st f rr r).outcome with
  | ok data =>
    cases hs : data.success with
    | false => simpa [houtcome, hs] using hres
    | true =>
      cases hd : data.dataField with
      | none => simpa [houtcome, hs, hd] using hres
      | some d =>
        simp only [houtcome, hs, hd]
        exact tokensTogether_setUser _ _ (tokensTogether_setTokens _ _ _)
  | error e => simpa [houtcome] using hres

lemma tokensTogether_checkAuthStore (st : Store) (f : FetchOutcome) (rr : RefreshResponse)
    (r : FetchOutcome) (h : tokensTogether st) :
    tokensTogether (checkAuthStore st f rr r) := by
  unfold checkAuthStore
  by_cases hath : jsTruthy (TokenManager.getAccessToken st) = true
  · simp only [hath, if_true]
    have hres := tokensTogether_apiRequest "/auth/me" {} st f rr r h
    cases houtcome : (apiRequest "/auth/me" {} st f rr r).outcome with
    | ok data =>
      cases hs : data.success with
      | false => simpa [houtcome, hs] using hres
      | true =>
        cases hd : data.dataField with
        | none => simpa [houtcome, hs, hd] using hres
        | some d =>
          simp only [houtcome, hs, hd]
          exact tokensTogether_setUser _ _ hres
    | error e =>
      simp only [houtcome]
      exact tokensTogether_clearTokens _
  · simp only [Bool.not_eq_true] at hath
    simpa [hath] using h

lemma tokensTogether_step (op : Op) (st : Store) (h : tokensTogether st) :
    tokensTogether (op.step st) := by
  cases op with
  | apiCall e o f rr r => exact tokensTogether_apiRequest e o st f rr r h
  | login f rr r => exact tokensTogether_loginStore st f rr r h
  | register f rr r => exact tokensTogether_registerStore st f rr r h
  | refresh resp => exact tokensTogether_refresh resp st h
  | logout f rr r => simp [Op.step, AuthAPI.logoutStore, tokensTogether, TokenManager.clearTokens]
  | checkAuth f rr r => exact tokensTogether_checkAuthStore st f rr r h

/-- **C7.** Starting from any store where the access and refresh tokens
are present or absent together, no sequence of client operations (API
calls with their 401 refresh-and-retry paths, login, register, refresh,
logout, auth-check with session-expiry clearing) can leave the Token
Store holding exactly one of the two tokens. -/
theorem tokenPairing_C7 (ops : List Op) (st : Store) (h : tokensTogether st) :
    tokensTogether (runOps ops st) := by
  induction ops generalizing st with
  | nil => exact h
  | cons op tl ih => exact ih (op.step st) (tokensTogether_step op st h)

/-- A successful auth envelope carrying a token pair and a user record. -/
def okAuthBody : RespBody :=
  { success := true, dataField := some ("A1", "R1", Json.null), error := none, message := none }

/-- Witness for C7: a concrete operation sequence (successful login, a
refresh, an API call whose refresh fails and clears the session, a
logout) run from the empty store. -/
theorem tokenPairing_C7_witness :
    tokensTogether (runOps
      [Op.login (.resp 200 (some okAuthBody)) (.json false none) (.resp 200 none),
       Op.refresh (.json true (some ("A2", "R2"))),
       Op.apiCall "/x" {} (.resp 401 none) (.json false none) (.resp 200 none),
       Op.logout (.resp 200 none) .netError (.resp 200 none)]
      stNoTokens) :=
  tokenPairing_C7 _ stNoTokens (by decide)

-- ============================================================
-- Remaining concrete witnesses
-- ============================================================

/-- A sample workout-log input. -/
def wSample : WorkoutInput := { exerciseId := "e1", duration := "90", sets := some "3" }

/-- Witness for C6: duration `"45"` transmits as the integer `45`, and
the optional numeric fields are coerced. -/
theorem logWorkout_C6_witness :
    (logWorkoutBody { wSample with duration := "45" }).duration = some 45 ∧
    (logWorkoutBody wSample).sets = some 3 := by
  refine ⟨(logWorkout_C6 wSample).2.2.2.2.2.1, ?_⟩
  rw [(logWorkout_C6 wSample).2.1]
  decide

/-- A filter mapping with a truthy `category` and a falsy `limit`. -/
def c10Filters : Filters := { entries := [("category", JVal.str "yoga"), ("limit", JVal.num 0)] }

/-- Witness for C10: dropping the falsy `limit` key changes nothing, and
no `limit` parameter is forwarded. -/
theorem getExercises_C10_witness :
    getExercisesParams { entries := c10Filters.entries.filter (fun p => p.1 != "limit") } =
      getExercisesParams c10Filters ∧
    ("limit", JVal.num 0) ∉ getExercisesParams c10Filters ∧
    ("limit", JVal.num 20) ∉ getExercisesParams c10Filters := by
  have h := getExercises_C10 c10Filters "limit" (JVal.num 0) (by decide) (by decide) (by decide)
  exact ⟨h.1, h.2 (JVal.num 0), h.2 (JVal.num 20)⟩
